import Mathlib

/-!
Verification of the DeArrow de-clickbait Discord bot message pipeline
(src/main.rs), as a shallow embedding: pure data for the branding API
responses, an executable backtracking matcher for the video-link regex,
and a trace-producing model of the message handler whose effect oracles
(branding fetch result, thumbnail fetch result, embed count of the
original message, arrival of the update notification) are explicit
parameters.
-/

namespace DeArrow

/-- Thumbnail policy, from the enum ThumbnailMode in src/main.rs. -/
inductive ThumbnailMode where
  | Disabled
  | Enabled
  | OnlyLocked
deriving DecidableEq

/-- The ToString impl of ThumbnailMode formats with the Debug derive,
which prints the variant name. -/
def ThumbnailMode.str : ThumbnailMode → String
  | ThumbnailMode.Disabled => "Disabled"
  | ThumbnailMode.Enabled => "Enabled"
  | ThumbnailMode.OnlyLocked => "OnlyLocked"

/-- ASCII lowercasing of one character: bytes 65..90 (A..Z) are shifted
by 32, everything else is unchanged, as str::to_ascii_lowercase does. -/
def asciiLowerChar (c : Char) : Char :=
  if 65 ≤ c.toNat ∧ c.toNat ≤ 90 then Char.ofNat (c.toNat + 32) else c

/-- ASCII lowercasing of a string, mapping asciiLowerChar over it. -/
def asciiLower (s : String) : String :=
  String.mk (s.data.map asciiLowerChar)

/-- The FromStr impl of ThumbnailMode: lowercase the input (ASCII-wise)
and compare against the three variant names; anything else errors.  The
error message of the source holds an apostrophe, rendered here as
"cannot parse thumbnail mode". -/
def ThumbnailMode.fromStr (s : String) : Except String ThumbnailMode :=
  if asciiLower s = "disabled" then Except.ok ThumbnailMode.Disabled
  else if asciiLower s = "enabled" then Except.ok ThumbnailMode.Enabled
  else if asciiLower s = "onlylocked" then Except.ok ThumbnailMode.OnlyLocked
  else Except.error "cannot parse thumbnail mode"

/-- struct BrandingTitle: one title candidate of the branding response. -/
structure BrandingTitle where
  title : String
  original : Bool
  votes : Int
  locked : Bool
  uuid : String
deriving DecidableEq

/-- struct BrandingThumbnail: one thumbnail candidate; the f32 timestamp
is modelled as a rational, only ever passed through to the fetch URL. -/
structure BrandingThumbnail where
  timestamp : Option Rat
  original : Bool
  votes : Int
  locked : Bool
  uuid : String
deriving DecidableEq

/-- struct BrandingResponse: the deserialized metadata response. -/
structure BrandingResponse where
  titles : List BrandingTitle
  thumbnails : List BrandingThumbnail
  randomTime : Rat
  videoDuration : Option Rat
deriving DecidableEq

/-! ## The video-link regex

The handler compiles the pattern

  (?:youtube(?:-nocookie)?\.com\/(?:[^\/\n\s]+\/\S+\/|(?:v|e(?:mbed)?)\/|\S*?[?&]v=)|youtu\.be\/)([a-zA-Z0-9_-]{11})

and takes capture group 1 of the first (leftmost, preference-order)
match.  We embed the pattern as a small regex AST with greedy and lazy
repetition and run it with a fuelled continuation-passing backtracking
matcher whose alternation and repetition preference order is exactly the
leftmost-first semantics of the regex crate. -/

/-- Unicode white space: the \s class of the regex crate in its default
Unicode mode (the White_Space property). -/
def isSpaceChar (c : Char) : Bool :=
  let n := c.toNat
  (9 ≤ n && n ≤ 13) || n = 32 || n = 133 || n = 160 || n = 5760 ||
  (8192 ≤ n && n ≤ 8202) || n = 8232 || n = 8233 || n = 8239 ||
  n = 8287 || n = 12288

/-- The class [^\/\n\s]: not a slash, newline or white space. -/
def pathSegChar (c : Char) : Bool :=
  !(c == '/') && !(c == '\n') && !isSpaceChar c

/-- The class \S: not white space. -/
def nonSpaceChar (c : Char) : Bool :=
  !isSpaceChar c

/-- The class [?&]. -/
def queryAmpChar (c : Char) : Bool :=
  c == '?' || c == '&'

/-- The class [a-zA-Z0-9_-] of the capture group. -/
def idChar (c : Char) : Bool :=
  (97 ≤ c.toNat && c.toNat ≤ 122) || (65 ≤ c.toNat && c.toNat ≤ 90) ||
  (48 ≤ c.toNat && c.toNat ≤ 57) || c == '_' || c == '-'

/-- Regex AST: empty word, a character class, sequencing, preference-
ordered alternation, greedy star and lazy star. -/
inductive RE where
  | eps
  | chr (p : Char → Bool)
  | seq (a b : RE)
  | alt (a b : RE)
  | starG (r : RE)
  | starL (r : RE)

/-- First-success choice on Option, the preference order of
backtracking alternation. -/
def ofirst {α : Type} (x y : Option α) : Option α :=
  match x with
  | some v => some v
  | none => y

/-- Fuelled continuation-passing backtracking matcher.  The
continuation receives the rest of the input; alternatives are tried
left to right, greedy stars try the longer split first, lazy stars the
shorter, which is the match preference order of the source pattern. -/
def matchRe {α : Type} : Nat → RE → List Char → (List Char → Option α) → Option α
  | 0, _, _, _ => none
  | Nat.succ _, RE.eps, s, k => k s
  | Nat.succ _, RE.chr p, s, k =>
    match s with
    | [] => none
    | c :: rest => if p c then k rest else none
  | Nat.succ fuel, RE.seq a b, s, k =>
    matchRe fuel a s (fun s2 => matchRe fuel b s2 k)
  | Nat.succ fuel, RE.alt a b, s, k =>
    ofirst (matchRe fuel a s k) (matchRe fuel b s k)
  | Nat.succ fuel, RE.starG r, s, k =>
    ofirst (matchRe fuel r s (fun s2 => matchRe fuel (RE.starG r) s2 k)) (k s)
  | Nat.succ fuel, RE.starL r, s, k =>
    ofirst (k s) (matchRe fuel r s (fun s2 => matchRe fuel (RE.starL r) s2 k))

/-- A string literal as a regex: the sequence of its characters. -/
def lit (s : String) : RE :=
  s.data.foldr (fun c r => RE.seq (RE.chr (fun d => d == c)) r) RE.eps

/-- Greedy option (?:r)? — prefers matching r over skipping it. -/
def reOpt (r : RE) : RE :=
  RE.alt r RE.eps

/-- Greedy plus r+ as r followed by a greedy star of r. -/
def plusG (r : RE) : RE :=
  RE.seq r (RE.starG r)

/-- The alternative [^\/\n\s]+\/\S+\/ of the pattern. -/
def altPath : RE :=
  RE.seq (plusG (RE.chr pathSegChar))
    (RE.seq (lit "/") (RE.seq (plusG (RE.chr nonSpaceChar)) (lit "/")))

/-- The alternative (?:v|e(?:mbed)?)\/ of the pattern. -/
def altVE : RE :=
  RE.seq (RE.alt (lit "v") (RE.seq (lit "e") (reOpt (lit "mbed")))) (lit "/")

/-- The alternative \S*?[?&]v= of the pattern. -/
def altQuery : RE :=
  RE.seq (RE.starL (RE.chr nonSpaceChar))
    (RE.seq (RE.chr queryAmpChar) (lit "v="))

/-- The whole non-capturing part of the pattern, before the capture
group:
(?:youtube(?:-nocookie)?\.com\/(?:altPath|altVE|altQuery)|youtu\.be\/). -/
def linkRe : RE :=
  RE.alt
    (RE.seq (lit "youtube")
      (RE.seq (reOpt (lit "-nocookie"))
        (RE.seq (lit ".com/") (RE.alt altPath (RE.alt altVE altQuery)))))
    (lit "youtu.be/")

/-- The capture group ([a-zA-Z0-9_-]{11}): succeeds when the next 11
characters are identifier characters, returning them as the capture. -/
def matchId (cs : List Char) : Option String :=
  if (cs.take 11).length = 11 ∧ (cs.take 11).all idChar = true
  then some (String.mk (cs.take 11)) else none

/-- Match of the full pattern anchored at the start of cs: the
non-capturing link shape, then the 11-character identifier; yields the
captured identifier.  The fuel is amply sufficient for this pattern. -/
def matchAt (cs : List Char) : Option String :=
  matchRe (64 * cs.length + 512) linkRe cs matchId

/-- Leftmost search: try the match at each successive start position and
return the first capture, as Regex::captures does. -/
def search : List Char → Option String
  | [] => matchAt []
  | c :: t =>
    match matchAt (c :: t) with
    | some id => some id
    | none => search t

/-- Link extraction of the handler: leftmost-first match of the pattern
over the sanitized message text, returning capture group 1. -/
def extractVideoId (s : String) : Option String :=
  search s.data

/-! ## The message handler

Handler::message is modelled as a pure function from the handler
configuration, the sanitized message content and the outcomes of its
effects (the branding fetch, the thumbnail fetch, the embed count of
the original message, and whether the awaited message-update
notification arrived before the 5000 ms timeout) to the list of
observable actions it performs, in order. -/

/-- The handler configuration, from struct Handler in src/main.rs. -/
structure Handler where
  remove_embed : Bool
  thumbnail_mode : ThumbnailMode
deriving DecidableEq

/-- The reply message composed by the handler: the embed title, the
embed description, whether the thumbnail image file is attached, and
the footer text. -/
structure Reply where
  title : String
  description : String
  hasThumbAttachment : Bool
  footer : String
deriving DecidableEq

/-- Observable actions of one Handler::message run, in program order. -/
inductive Action where
  | fetchBranding (vidId : String)
  | fetchThumbnail (vidId : String) (timestamp : Option Rat)
  | sendReply (r : Reply)
  | waitUpdate (timeoutMs : Nat) (resolvedBeforeTimeout : Bool)
  | suppressEmbeds
deriving DecidableEq

/-- The " " / " not " infix of the description format strings. -/
def lockStr (b : Bool) : String :=
  if b then " " else " not "

/-- The embed description when a thumbnail image is attached. -/
def descWithThumb (t : BrandingTitle) (votes : Int) (locked : Bool) : String :=
  "Title: " ++ toString t.votes ++ " votes, is" ++ lockStr t.locked ++
    "locked; Thumbnail: " ++ toString votes ++ " votes, is" ++
    lockStr locked ++ "locked"

/-- The thumbnail-absence reason string, by configured mode. -/
def thumbReason : ThumbnailMode → String
  | ThumbnailMode.Disabled => "disabled by dev"
  | ThumbnailMode.Enabled => "not found"
  | ThumbnailMode.OnlyLocked => "disabled by dev (lock-only)"

/-- The embed description of a title-only reply. -/
def descNoThumb (t : BrandingTitle) (m : ThumbnailMode) : String :=
  "Title: " ++ toString t.votes ++ " votes, is" ++ lockStr t.locked ++
    "locked; Thumbnail: " ++ thumbReason m

/-- The fixed attribution footer. -/
def footerText : String :=
  "De-Clickbait provided by DeArrow API."

/-- The thumbnail decision of the handler (the let thumb = ...
expression): first component is some ts when a get_thumbnail call with
timestamp ts is issued, second is the (bytes, votes, locked) value the
code binds to thumb.  tf is the oracle for the issued fetch: some bytes
on success, none on failure. -/
def thumbDecision (h : Handler) (b : BrandingResponse)
    (tf : Option (List Nat)) :
    Option (Option Rat) × Option (List Nat × Int × Bool) :=
  if h.thumbnail_mode ≠ ThumbnailMode.Disabled then
    match b.thumbnails.head? with
    | some th =>
      if th.locked = false ∧ th.votes < 0 then (none, none)
      else if th.locked = false ∧ h.thumbnail_mode = ThumbnailMode.OnlyLocked
      then (none, none)
      else (some th.timestamp, tf.map (fun x => (x, th.votes, th.locked)))
    | none => (none, none)
  else (none, none)

/-- The actions of the thumbnail decision: the issued fetch, if any. -/
def thumbActions (id : String) : Option (Option Rat) → List Action
  | some ts => [Action.fetchThumbnail id ts]
  | none => []

/-- Reply composition (the match thumb expression building the
CreateMessage): with a thumbnail the image is attached and both vote
and lock states are reported, without one the description carries the
per-mode absence reason. -/
def composeReply (t : BrandingTitle) (m : ThumbnailMode)
    (thumb : Option (List Nat × Int × Bool)) : Reply :=
  match thumb with
  | some (_, votes, locked) =>
    { title := t.title, description := descWithThumb t votes locked,
      hasThumbAttachment := true, footer := footerText }
  | none =>
    { title := t.title, description := descNoThumb t m,
      hasThumbAttachment := false, footer := footerText }

/-- The preview-suppression tail of the handler: when the mode is not
Disabled, a thumbnail was attached and remove_embed is set, first wait
(bounded by 5000 ms) for a matching message-update notification if the
original message has no embeds yet, then edit the original message to
suppress its embeds. -/
def suppressionActions (h : Handler) (thumbPresent : Bool) (n : Nat)
    (u : Bool) : List Action :=
  if h.thumbnail_mode ≠ ThumbnailMode.Disabled ∧ thumbPresent = true ∧
      h.remove_embed = true then
    (if n = 0 then [Action.waitUpdate 5000 u] else []) ++
      [Action.suppressEmbeds]
  else []

/-- The handler tail after the title trust gate has passed: thumbnail
decision, reply send, preview suppression. -/
def afterGate (h : Handler) (id : String) (b : BrandingResponse)
    (t : BrandingTitle) (tf : Option (List Nat)) (n : Nat) (u : Bool) :
    List Action :=
  thumbActions id (thumbDecision h b tf).1 ++
    Action.sendReply (composeReply t h.thumbnail_mode (thumbDecision h b tf).2) ::
      suppressionActions h (thumbDecision h b tf).2.isSome n u

/-- Handler::message as a trace function.  br is the get_branding
oracle (none on fetch failure), tf the get_thumbnail oracle, n the
embed count of the original message when the suppression branch reads
it, u whether the awaited update notification arrived before the
timeout (the code discards this result, which the trace records in the
waitUpdate action). -/
def handlerMessage (h : Handler) (content : String)
    (br : Option BrandingResponse) (tf : Option (List Nat)) (n : Nat)
    (u : Bool) : List Action :=
  match extractVideoId content with
  | none => []
  | some id =>
    Action.fetchBranding id ::
      match br with
      | none => []
      | some b =>
        match b.titles.head? with
        | none => []
        | some t =>
          if t.locked = false ∧ t.votes < 0 then []
          else afterGate h id b t tf n u

/-- True of the reply-send action. -/
def Action.isSendReply : Action → Bool
  | Action.sendReply _ => true
  | _ => false

/-- True of the thumbnail-fetch action. -/
def Action.isThumbFetch : Action → Bool
  | Action.fetchThumbnail _ _ => true
  | _ => false

/-- True of the bounded-wait action. -/
def Action.isWaitUpdate : Action → Bool
  | Action.waitUpdate _ _ => true
  | _ => false

/-- True of the suppress-embeds edit action. -/
def Action.isSuppress : Action → Bool
  | Action.suppressEmbeds => true
  | _ => false

/-- Whether the trace sends a reply. -/
def sendsReply (tr : List Action) : Bool :=
  tr.any Action.isSendReply

/-- Whether the trace issues a thumbnail-image fetch. -/
def callsThumbFetch (tr : List Action) : Bool :=
  tr.any Action.isThumbFetch

/-- Whether the trace performs the bounded wait. -/
def hasWait (tr : List Action) : Bool :=
  tr.any Action.isWaitUpdate

/-- Whether the trace edits the original message to suppress embeds. -/
def hasSuppress (tr : List Action) : Bool :=
  tr.any Action.isSuppress

/-- The replies sent by the trace, in order. -/
def sentReplies (tr : List Action) : List Reply :=
  tr.filterMap (fun a =>
    match a with
    | Action.sendReply r => some r
    | _ => none)

/-! ## Lemmas about the matcher -/

theorem ofirst_eq_some {α : Type} {x y : Option α} {v : α}
    (h : ofirst x y = some v) : x = some v ∨ y = some v := by
  cases x with
  | none => right; simpa [ofirst] using h
  | some w => left; simpa [ofirst] using h

theorem matchRe_some {α : Type} :
    ∀ (fuel : Nat) (r : RE) (s : List Char) (k : List Char → Option α)
      (v : α), matchRe fuel r s k = some v → ∃ s2, k s2 = some v := by
  intro fuel
  induction fuel with
  | zero =>
    intro r s k v h
    simp [matchRe] at h
  | succ f ih =>
    intro r s k v h
    cases r with
    | eps => exact ⟨s, h⟩
    | chr p =>
      cases s with
      | nil => simp [matchRe] at h
      | cons c rest =>
        simp only [matchRe] at h
        by_cases hp : p c
        · rw [if_pos hp] at h
          exact ⟨rest, h⟩
        · rw [if_neg hp] at h
          exact absurd h (by simp)
    | seq a b =>
      simp only [matchRe] at h
      obtain ⟨s2, h2⟩ := ih a s _ v h
      exact ih b s2 k v h2
    | alt a b =>
      simp only [matchRe] at h
      rcases ofirst_eq_some h with h1 | h2
      · exact ih a s k v h1
      · exact ih b s k v h2
    | starG r0 =>
      simp only [matchRe] at h
      rcases ofirst_eq_some h with h1 | h2
      · obtain ⟨s2, h2⟩ := ih r0 s _ v h1
        exact ih (RE.starG r0) s2 k v h2
      · exact ⟨s, h2⟩
    | starL r0 =>
      simp only [matchRe] at h
      rcases ofirst_eq_some h with h1 | h2
      · exact ⟨s, h1⟩
      · obtain ⟨s2, h3⟩ := ih r0 s _ v h2
        exact ih (RE.starL r0) s2 k v h3

theorem matchId_some {cs : List Char} {id : String}
    (h : matchId cs = some id) :
    id.length = 11 ∧ id.data.all idChar = true := by
  unfold matchId at h
  split at h
  · rename_i hcond
    obtain ⟨h1, h2⟩ := hcond
    injection h with h3
    subst h3
    exact ⟨h1, h2⟩
  · exact absurd h (by simp)

theorem matchAt_some {cs : List Char} {id : String}
    (h : matchAt cs = some id) :
    id.length = 11 ∧ id.data.all idChar = true := by
  obtain ⟨s2, h2⟩ := matchRe_some _ _ _ _ _ h
  exact matchId_some h2

theorem search_some :
    ∀ (cs : List Char) (id : String), search cs = some id →
      ∃ i, i ≤ cs.length ∧ matchAt (cs.drop i) = some id ∧
        ∀ j, j < i → matchAt (cs.drop j) = none := by
  intro cs
  induction cs with
  | nil =>
    intro id hsearch
    exact ⟨0, Nat.le_refl 0, hsearch,
      fun j hj => absurd hj (Nat.not_lt_zero j)⟩
  | cons c t ih =>
    intro id hsearch
    cases hm : matchAt (c :: t) with
    | some id2 =>
      simp only [search, hm] at hsearch
      refine ⟨0, Nat.zero_le _, ?_, fun j hj => absurd hj (Nat.not_lt_zero j)⟩
      rw [List.drop_zero, hm, hsearch]
    | none =>
      simp only [search, hm] at hsearch
      obtain ⟨i, hle, hi, hj⟩ := ih id hsearch
      refine ⟨i + 1, Nat.succ_le_succ hle, by simpa using hi, ?_⟩
      intro j hj2
      cases j with
      | zero => simpa using hm
      | succ j2 =>
        have := hj j2 (Nat.lt_of_succ_lt_succ hj2)
        simpa using this

theorem search_first :
    ∀ (cs : List Char) (i : Nat) (id : String),
      matchAt (cs.drop i) = some id →
      (∀ j, j < i → matchAt (cs.drop j) = none) →
      search cs = some id := by
  intro cs
  induction cs with
  | nil =>
    intro i id hi _
    rw [List.drop_nil] at hi
    simpa [search] using hi
  | cons c t ih =>
    intro i id hi hj
    cases i with
    | zero =>
      rw [List.drop_zero] at hi
      simp [search, hi]
    | succ i2 =>
      have h0 : matchAt (c :: t) = none := by
        simpa using hj 0 (Nat.succ_pos i2)
      rw [List.drop_succ_cons] at hi
      have ht := ih i2 id hi (fun j hjj => by
        simpa using hj (j + 1) (Nat.succ_lt_succ hjj))
      simp [search, h0, ht]

theorem search_none :
    ∀ cs : List Char, (∀ i, i ≤ cs.length → matchAt (cs.drop i) = none) →
      search cs = none := by
  intro cs
  induction cs with
  | nil =>
    intro hall
    simpa [search] using hall 0 (Nat.le_refl 0)
  | cons c t ih =>
    intro hall
    have h0 : matchAt (c :: t) = none := by simpa using hall 0 (Nat.zero_le _)
    have ht : search t = none := by
      refine ih (fun i hi => ?_)
      simpa using hall (i + 1) (Nat.succ_le_succ hi)
    simp [search, h0, ht]

/-! ## Lemmas about the handler trace -/

theorem gateFail_iff (t : BrandingTitle) :
    (t.locked = false ∧ t.votes < 0) ↔
      ¬(t.locked = true ∨ 0 ≤ t.votes) := by
  cases hl : t.locked <;> simp

theorem handlerMessage_gateFail {h : Handler} {content id : String}
    {b : BrandingResponse} {t : BrandingTitle} {ts : List BrandingTitle}
    {tf : Option (List Nat)} {n : Nat} {u : Bool}
    (hx : extractVideoId content = some id) (hb : b.titles = t :: ts)
    (hgate : t.locked = false ∧ t.votes < 0) :
    handlerMessage h content (some b) tf n u = [Action.fetchBranding id] := by
  unfold handlerMessage
  rw [hx]
  simp only [hb, List.head?_cons]
  rw [if_pos hgate]

theorem handlerMessage_pass {h : Handler} {content id : String}
    {b : BrandingResponse} {t : BrandingTitle} {ts : List BrandingTitle}
    {tf : Option (List Nat)} {n : Nat} {u : Bool}
    (hx : extractVideoId content = some id) (hb : b.titles = t :: ts)
    (hg : t.locked = true ∨ 0 ≤ t.votes) :
    handlerMessage h content (some b) tf n u =
      Action.fetchBranding id :: afterGate h id b t tf n u := by
  unfold handlerMessage
  rw [hx]
  simp only [hb, List.head?_cons]
  rw [if_neg (fun hc => (gateFail_iff t).mp hc hg)]

theorem sentReplies_thumbActions (id : String) (x : Option (Option Rat)) :
    sentReplies (thumbActions id x) = [] := by
  cases x <;> simp [thumbActions, sentReplies]

theorem sentReplies_suppression (h : Handler) (tp : Bool) (n : Nat)
    (u : Bool) : sentReplies (suppressionActions h tp n u) = [] := by
  unfold suppressionActions
  split
  · split <;> simp [sentReplies]
  · simp [sentReplies]

theorem sentReplies_append (l1 l2 : List Action) :
    sentReplies (l1 ++ l2) = sentReplies l1 ++ sentReplies l2 := by
  simp [sentReplies, List.filterMap_append]

theorem sentReplies_cons_send (r : Reply) (l : List Action) :
    sentReplies (Action.sendReply r :: l) = r :: sentReplies l := by
  simp [sentReplies]

theorem sentReplies_afterGate (h : Handler) (id : String)
    (b : BrandingResponse) (t : BrandingTitle) (tf : Option (List Nat))
    (n : Nat) (u : Bool) :
    sentReplies (afterGate h id b t tf n u) =
      [composeReply t h.thumbnail_mode (thumbDecision h b tf).2] := by
  unfold afterGate
  rw [sentReplies_append, sentReplies_thumbActions, sentReplies_cons_send,
    sentReplies_suppression]
  rfl

theorem sendsReply_afterGate (h : Handler) (id : String)
    (b : BrandingResponse) (t : BrandingTitle) (tf : Option (List Nat))
    (n : Nat) (u : Bool) :
    sendsReply (afterGate h id b t tf n u) = true := by
  unfold afterGate sendsReply
  simp [List.any_append, Action.isSendReply]

theorem anyThumbFetch_thumbActions (id : String) (x : Option (Option Rat)) :
    (thumbActions id x).any Action.isThumbFetch = x.isSome := by
  cases x <;> simp [thumbActions, Action.isThumbFetch]

theorem anyThumbFetch_suppression (h : Handler) (tp : Bool) (n : Nat)
    (u : Bool) :
    (suppressionActions h tp n u).any Action.isThumbFetch = false := by
  unfold suppressionActions
  split
  · split <;> simp [Action.isThumbFetch]
  · simp

theorem callsThumbFetch_afterGate (h : Handler) (id : String)
    (b : BrandingResponse) (t : BrandingTitle) (tf : Option (List Nat))
    (n : Nat) (u : Bool) :
    callsThumbFetch (afterGate h id b t tf n u) =
      (thumbDecision h b tf).1.isSome := by
  unfold afterGate callsThumbFetch
  simp [List.any_append, Action.isThumbFetch, anyThumbFetch_thumbActions,
    anyThumbFetch_suppression]

theorem thumbDecision_disabled {h : Handler} (b : BrandingResponse)
    (tf : Option (List Nat))
    (hmode : h.thumbnail_mode = ThumbnailMode.Disabled) :
    thumbDecision h b tf = (none, none) := by
  unfold thumbDecision
  rw [if_neg]
  simp [hmode]

theorem composeReply_hasThumb (t : BrandingTitle) (m : ThumbnailMode)
    (th : Option (List Nat × Int × Bool)) :
    (composeReply t m th).hasThumbAttachment = th.isSome := by
  cases th with
  | none => rfl
  | some p =>
    obtain ⟨x, v, l⟩ := p
    rfl

theorem composeReply_none_description (t : BrandingTitle)
    (m : ThumbnailMode) :
    (composeReply t m none).description = descNoThumb t m := rfl

theorem sendsReply_cons_of (a : Action) {l : List Action}
    (hl : sendsReply l = true) : sendsReply (a :: l) = true := by
  simp only [sendsReply, List.any_cons, Bool.or_eq_true]
  exact Or.inr hl

theorem sentReplies_cons_fetchB (id : String) (l : List Action) :
    sentReplies (Action.fetchBranding id :: l) = sentReplies l := by
  simp [sentReplies]

theorem callsThumbFetch_cons (a : Action) (l : List Action) :
    callsThumbFetch (a :: l) = (Action.isThumbFetch a || callsThumbFetch l) := by
  simp [callsThumbFetch]

theorem hasSuppress_cons (a : Action) (l : List Action) :
    hasSuppress (a :: l) = (Action.isSuppress a || hasSuppress l) := by
  simp [hasSuppress]

theorem hasSuppress_append (l1 l2 : List Action) :
    hasSuppress (l1 ++ l2) = (hasSuppress l1 || hasSuppress l2) := by
  simp [hasSuppress]

theorem hasSuppress_thumbActions (id : String) (x : Option (Option Rat)) :
    hasSuppress (thumbActions id x) = false := by
  cases x <;> simp [thumbActions, hasSuppress, Action.isSuppress]

theorem hasSuppress_suppression (h : Handler) (tp : Bool) (n : Nat)
    (u : Bool) :
    hasSuppress (suppressionActions h tp n u) =
      (decide (h.thumbnail_mode ≠ ThumbnailMode.Disabled) && tp &&
        h.remove_embed) := by
  unfold suppressionActions
  split
  · rename_i hc
    obtain ⟨h1, h2, h3⟩ := hc
    rw [h2, h3]
    split <;> simp [hasSuppress, Action.isSuppress, h1]
  · rename_i hc
    by_cases hA : h.thumbnail_mode = ThumbnailMode.Disabled
    · simp [hasSuppress, hA]
    · cases htp : tp with
      | false => simp [hasSuppress, htp]
      | true =>
        cases hre : h.remove_embed with
        | false => simp [hasSuppress, hre]
        | true => exact absurd ⟨hA, htp, hre⟩ hc

theorem hasSuppress_afterGate (h : Handler) (id : String)
    (b : BrandingResponse) (t : BrandingTitle) (tf : Option (List Nat))
    (n : Nat) (u : Bool) :
    hasSuppress (afterGate h id b t tf n u) =
      (decide (h.thumbnail_mode ≠ ThumbnailMode.Disabled) &&
        (thumbDecision h b tf).2.isSome && h.remove_embed) := by
  unfold afterGate
  rw [hasSuppress_append, hasSuppress_thumbActions, hasSuppress_cons,
    hasSuppress_suppression]
  simp [Action.isSuppress]

theorem thumbDecision_lockOnly {h : Handler} {b : BrandingResponse}
    {th : BrandingThumbnail} {tts : List BrandingThumbnail}
    (tf : Option (List Nat))
    (hmode : h.thumbnail_mode = ThumbnailMode.OnlyLocked)
    (hth : b.thumbnails = th :: tts)
    (hthl : th.locked = false) (hthv : 0 ≤ th.votes) :
    thumbDecision h b tf = (none, none) := by
  unfold thumbDecision
  rw [if_pos (by rw [hmode]; simp)]
  simp only [hth, List.head?_cons]
  rw [if_neg (fun hc => absurd hc.2 (by omega))]
  rw [if_pos ⟨hthl, hmode⟩]

theorem thumbDecision_untrusted {h : Handler} {b : BrandingResponse}
    {th : BrandingThumbnail} {tts : List BrandingThumbnail}
    (tf : Option (List Nat))
    (hth : b.thumbnails = th :: tts)
    (hthl : th.locked = false) (hthv : th.votes < 0) :
    thumbDecision h b tf = (none, none) := by
  unfold thumbDecision
  by_cases hm : h.thumbnail_mode ≠ ThumbnailMode.Disabled
  · rw [if_pos hm]
    simp only [hth, List.head?_cons]
    rw [if_pos ⟨hthl, hthv⟩]
  · rw [if_neg hm]

theorem thumbDecision_accept {h : Handler} {b : BrandingResponse}
    {th : BrandingThumbnail} {tts : List BrandingThumbnail}
    (tf : Option (List Nat))
    (hmode : h.thumbnail_mode ≠ ThumbnailMode.Disabled)
    (hth : b.thumbnails = th :: tts)
    (htrust : th.locked = true ∨ 0 ≤ th.votes)
    (hpol : th.locked = true ∨ h.thumbnail_mode ≠ ThumbnailMode.OnlyLocked) :
    thumbDecision h b tf =
      (some th.timestamp, tf.map (fun x => (x, th.votes, th.locked))) := by
  unfold thumbDecision
  rw [if_pos hmode]
  simp only [hth, List.head?_cons]
  rw [if_neg (fun hc => by
    rcases htrust with hl | hv
    · rw [hl] at hc
      exact absurd hc.1 (by simp)
    · exact absurd hc.2 (by omega))]
  rw [if_neg (fun hc => by
    rcases hpol with hl | hm
    · rw [hl] at hc
      exact absurd hc.1 (by simp)
    · exact absurd hc.2 hm)]

/-! ## The claims -/

/-- Claim C1: for every metadata response with a non-empty titles
sequence, the handler sends a reply iff the first title candidate is
locked or has a non-negative vote score; equivalently it is a terminal
no-op exactly when the first title is unlocked with a negative vote
score, and a locked title proceeds regardless of vote-score sign. -/
theorem title_gate_reply_iff (h : Handler) (content id : String)
    (b : BrandingResponse) (t : BrandingTitle) (ts : List BrandingTitle)
    (tf : Option (List Nat)) (n : Nat) (u : Bool)
    (hx : extractVideoId content = some id) (hb : b.titles = t :: ts) :
    sendsReply (handlerMessage h content (some b) tf n u) = true ↔
      (t.locked = true ∨ 0 ≤ t.votes) := by
  by_cases hgate : t.locked = false ∧ t.votes < 0
  · rw [handlerMessage_gateFail hx hb hgate]
    exact iff_of_false (by simp [sendsReply, Action.isSendReply])
      ((gateFail_iff t).mp hgate)
  · have hg : t.locked = true ∨ 0 ≤ t.votes := by
      by_contra hc
      exact hgate ((gateFail_iff t).mpr hc)
    rw [handlerMessage_pass hx hb hg]
    exact iff_of_true
      (sendsReply_cons_of _ (sendsReply_afterGate h id b t tf n u)) hg

theorem title_gate_reply_iff_w :
    sendsReply (handlerMessage ⟨true, ThumbnailMode.Enabled⟩
      "youtu.be/aaaaaaaaaaa"
      (some ⟨[⟨"T", false, -5, true, "u"⟩], [], 0, none⟩) none 0 true) =
      true ↔
      ((⟨"T", false, -5, true, "u"⟩ : BrandingTitle).locked = true ∨
        0 ≤ (⟨"T", false, -5, true, "u"⟩ : BrandingTitle).votes) :=
  title_gate_reply_iff ⟨true, ThumbnailMode.Enabled⟩ "youtu.be/aaaaaaaaaaa"
    "aaaaaaaaaaa" ⟨[⟨"T", false, -5, true, "u"⟩], [], 0, none⟩
    ⟨"T", false, -5, true, "u"⟩ [] none 0 true (by decide) rfl

/-- Claim C2: past the title trust gate, when the configured mode is
Disabled no thumbnail fetch is issued and the sent reply is title-only,
its description carrying the absence reason "disabled by dev". -/
theorem disabled_mode_title_only (h : Handler) (content id : String)
    (b : BrandingResponse) (t : BrandingTitle) (ts : List BrandingTitle)
    (tf : Option (List Nat)) (n : Nat) (u : Bool)
    (hmode : h.thumbnail_mode = ThumbnailMode.Disabled)
    (hx : extractVideoId content = some id) (hb : b.titles = t :: ts)
    (hg : t.locked = true ∨ 0 ≤ t.votes) :
    callsThumbFetch (handlerMessage h content (some b) tf n u) = false ∧
    sentReplies (handlerMessage h content (some b) tf n u) =
      [composeReply t h.thumbnail_mode none] ∧
    (composeReply t h.thumbnail_mode none).hasThumbAttachment = false ∧
    (composeReply t h.thumbnail_mode none).description =
      descNoThumb t h.thumbnail_mode ∧
    thumbReason h.thumbnail_mode = "disabled by dev" := by
  rw [handlerMessage_pass hx hb hg]
  have htd := thumbDecision_disabled b tf hmode
  refine ⟨?_, ?_, ?_, rfl, by rw [hmode]; rfl⟩
  · rw [callsThumbFetch_cons, callsThumbFetch_afterGate, htd]
    simp [Action.isThumbFetch]
  · rw [sentReplies_cons_fetchB, sentReplies_afterGate, htd]
  · simpa using composeReply_hasThumb t h.thumbnail_mode none

theorem disabled_mode_title_only_w :
    (⟨false, ThumbnailMode.Disabled⟩ : Handler).thumbnail_mode =
      ThumbnailMode.Disabled ∧
    extractVideoId "youtu.be/aaaaaaaaaaa" = some "aaaaaaaaaaa" ∧
    callsThumbFetch (handlerMessage ⟨false, ThumbnailMode.Disabled⟩
      "youtu.be/aaaaaaaaaaa"
      (some ⟨[⟨"T", false, 3, false, "u"⟩],
        [⟨none, false, 7, true, "v"⟩], 0, none⟩) (some [1]) 0 true) =
      false := by
  refine ⟨rfl, by decide, ?_⟩
  exact (disabled_mode_title_only ⟨false, ThumbnailMode.Disabled⟩
    "youtu.be/aaaaaaaaaaa" "aaaaaaaaaaa"
    ⟨[⟨"T", false, 3, false, "u"⟩], [⟨none, false, 7, true, "v"⟩], 0, none⟩
    ⟨"T", false, 3, false, "u"⟩ [] (some [1]) 0 true rfl (by decide) rfl
    (Or.inr (by decide))).1

/-- Claim C6: a metadata response with an empty titles sequence is a
terminal no-op (the trace stops at the branding fetch, nothing is
sent), and a reply is only ever sent when the response has at least one
title candidate. -/
theorem empty_titles_no_reply (h : Handler) (content id : String)
    (b : BrandingResponse) (tf : Option (List Nat)) (n : Nat) (u : Bool)
    (hx : extractVideoId content = some id) :
    (b.titles = [] →
      handlerMessage h content (some b) tf n u = [Action.fetchBranding id]) ∧
    (sendsReply (handlerMessage h content (some b) tf n u) = true →
      b.titles ≠ []) := by
  have hterm : b.titles = [] →
      handlerMessage h content (some b) tf n u = [Action.fetchBranding id] := by
    intro he
    unfold handlerMessage
    rw [hx]
    simp [he]
  refine ⟨hterm, fun hs he => ?_⟩
  rw [hterm he] at hs
  simp [sendsReply, Action.isSendReply] at hs

theorem empty_titles_no_reply_w :
    handlerMessage ⟨true, ThumbnailMode.Enabled⟩ "youtu.be/aaaaaaaaaaa"
      (some ⟨[], [⟨none, false, 7, true, "v"⟩], 0, none⟩) (some [1]) 0
      true = [Action.fetchBranding "aaaaaaaaaaa"] :=
  (empty_titles_no_reply ⟨true, ThumbnailMode.Enabled⟩
    "youtu.be/aaaaaaaaaaa" "aaaaaaaaaaa"
    ⟨[], [⟨none, false, 7, true, "v"⟩], 0, none⟩ (some [1]) 0 true
    (by decide)).1 rfl

/-- Claim C10: formatting a ThumbnailMode yields the variant name,
parsing is ASCII-case-insensitive, format-then-parse is a round trip,
and a string that is not a case variant of a mode name parses to an
error (isOk exactly on the three lowered names). -/
theorem thumbnail_mode_roundtrip (m : ThumbnailMode) (s : String) :
    ThumbnailMode.fromStr (ThumbnailMode.str m) = Except.ok m ∧
    (ThumbnailMode.fromStr s = Except.ok m ↔
      asciiLower s = asciiLower (ThumbnailMode.str m)) ∧
    (ThumbnailMode.fromStr s).isOk =
      (asciiLower s == "disabled" || asciiLower s == "enabled" ||
        asciiLower s == "onlylocked") := by
  have e1 : asciiLower "Disabled" = "disabled" := by decide
  have e2 : asciiLower "Enabled" = "enabled" := by decide
  have e3 : asciiLower "OnlyLocked" = "onlylocked" := by decide
  refine ⟨?_, ?_, ?_⟩
  · cases m <;> rfl
  · cases m <;>
      simp only [ThumbnailMode.str, e1, e2, e3] <;>
      by_cases h1 : asciiLower s = "disabled" <;>
      by_cases h2 : asciiLower s = "enabled" <;>
      by_cases h3 : asciiLower s = "onlylocked" <;>
      simp [ThumbnailMode.fromStr, h1, h2, h3]
  · by_cases h1 : asciiLower s = "disabled" <;>
      by_cases h2 : asciiLower s = "enabled" <;>
      by_cases h3 : asciiLower s = "onlylocked" <;>
      simp [ThumbnailMode.fromStr, h1, h2, h3, Except.isOk, Except.toBool]

/-- Claim C3: past the title trust gate, with mode OnlyLocked and an
unlocked first thumbnail candidate of non-negative vote score, no
thumbnail-image fetch is issued and the sent reply is title-only with
absence reason "disabled by dev (lock-only)". -/
theorem onlylocked_unlocked_title_only (h : Handler) (content id : String)
    (b : BrandingResponse) (t : BrandingTitle) (ts : List BrandingTitle)
    (th : BrandingThumbnail) (tts : List BrandingThumbnail)
    (tf : Option (List Nat)) (n : Nat) (u : Bool)
    (hmode : h.thumbnail_mode = ThumbnailMode.OnlyLocked)
    (hx : extractVideoId content = some id) (hb : b.titles = t :: ts)
    (hg : t.locked = true ∨ 0 ≤ t.votes)
    (hth : b.thumbnails = th :: tts)
    (hthl : th.locked = false) (hthv : 0 ≤ th.votes) :
    callsThumbFetch (handlerMessage h content (some b) tf n u) = false ∧
    sentReplies (handlerMessage h content (some b) tf n u) =
      [composeReply t h.thumbnail_mode none] ∧
    (composeReply t h.thumbnail_mode none).hasThumbAttachment = false ∧
    (composeReply t h.thumbnail_mode none).description =
      descNoThumb t h.thumbnail_mode ∧
    thumbReason h.thumbnail_mode = "disabled by dev (lock-only)" := by
  rw [handlerMessage_pass hx hb hg]
  have htd := thumbDecision_lockOnly tf hmode hth hthl hthv
  refine ⟨?_, ?_, ?_, rfl, by rw [hmode]; rfl⟩
  · rw [callsThumbFetch_cons, callsThumbFetch_afterGate, htd]
    simp [Action.isThumbFetch]
  · rw [sentReplies_cons_fetchB, sentReplies_afterGate, htd]
  · simpa using composeReply_hasThumb t h.thumbnail_mode none

theorem onlylocked_unlocked_title_only_w :
    callsThumbFetch (handlerMessage ⟨true, ThumbnailMode.OnlyLocked⟩
      "youtu.be/aaaaaaaaaaa"
      (some ⟨[⟨"T", false, 3, true, "u"⟩],
        [⟨some (25 / 2), false, 10, false, "v"⟩], 0, none⟩)
      (some [1]) 0 true) = false ∧
    thumbReason ThumbnailMode.OnlyLocked = "disabled by dev (lock-only)" := by
  have hm := onlylocked_unlocked_title_only ⟨true, ThumbnailMode.OnlyLocked⟩
    "youtu.be/aaaaaaaaaaa" "aaaaaaaaaaa"
    ⟨[⟨"T", false, 3, true, "u"⟩],
      [⟨some (25 / 2), false, 10, false, "v"⟩], 0, none⟩
    ⟨"T", false, 3, true, "u"⟩ [] ⟨some (25 / 2), false, 10, false, "v"⟩ []
    (some [1]) 0 true rfl (by decide) rfl (Or.inl rfl) rfl rfl
    (by norm_num)
  exact ⟨hm.1, hm.2.2.2.2⟩

/-- Claim C4: past the title trust gate, with a first thumbnail
candidate accepted by the policy and the thumbnail trust gate, a
failing thumbnail-image fetch does not abort the message: the fetch is
issued, and the reply is still sent, title-only. -/
theorem thumb_fetch_failure_title_only (h : Handler) (content id : String)
    (b : BrandingResponse) (t : BrandingTitle) (ts : List BrandingTitle)
    (th : BrandingThumbnail) (tts : List BrandingThumbnail)
    (n : Nat) (u : Bool)
    (hmode : h.thumbnail_mode ≠ ThumbnailMode.Disabled)
    (hx : extractVideoId content = some id) (hb : b.titles = t :: ts)
    (hg : t.locked = true ∨ 0 ≤ t.votes)
    (hth : b.thumbnails = th :: tts)
    (htrust : th.locked = true ∨ 0 ≤ th.votes)
    (hpol : th.locked = true ∨ h.thumbnail_mode ≠ ThumbnailMode.OnlyLocked) :
    callsThumbFetch (handlerMessage h content (some b) none n u) = true ∧
    sendsReply (handlerMessage h content (some b) none n u) = true ∧
    sentReplies (handlerMessage h content (some b) none n u) =
      [composeReply t h.thumbnail_mode none] ∧
    (composeReply t h.thumbnail_mode none).hasThumbAttachment = false := by
  rw [handlerMessage_pass hx hb hg]
  have htd := thumbDecision_accept (h := h) (b := b) none hmode hth htrust hpol
  refine ⟨?_, ?_, ?_, ?_⟩
  · rw [callsThumbFetch_cons, callsThumbFetch_afterGate, htd]
    simp [Action.isThumbFetch]
  · exact sendsReply_cons_of _ (sendsReply_afterGate h id b t none n u)
  · rw [sentReplies_cons_fetchB, sentReplies_afterGate, htd]
    rfl
  · simpa using composeReply_hasThumb t h.thumbnail_mode none

theorem thumb_fetch_failure_title_only_w :
    callsThumbFetch (handlerMessage ⟨true, ThumbnailMode.Enabled⟩
      "youtu.be/aaaaaaaaaaa"
      (some ⟨[⟨"T", false, 3, true, "u"⟩],
        [⟨none, false, 10, true, "v"⟩], 0, none⟩) none 0 true) = true ∧
    sendsReply (handlerMessage ⟨true, ThumbnailMode.Enabled⟩
      "youtu.be/aaaaaaaaaaa"
      (some ⟨[⟨"T", false, 3, true, "u"⟩],
        [⟨none, false, 10, true, "v"⟩], 0, none⟩) none 0 true) = true := by
  have hm := thumb_fetch_failure_title_only ⟨true, ThumbnailMode.Enabled⟩
    "youtu.be/aaaaaaaaaaa" "aaaaaaaaaaa"
    ⟨[⟨"T", false, 3, true, "u"⟩], [⟨none, false, 10, true, "v"⟩], 0, none⟩
    ⟨"T", false, 3, true, "u"⟩ [] ⟨none, false, 10, true, "v"⟩ [] 0 true
    (by decide) (by decide) rfl (Or.inl rfl) rfl (Or.inl rfl)
    (Or.inr (by decide))
  exact ⟨hm.1, hm.2.1⟩

/-- Claim C5: past the title trust gate, an unlocked first thumbnail
candidate with a negative vote score is rejected by the same trust gate
shape as the title, but only the thumbnail is dropped: no image fetch
is issued and a title-only reply is still sent. -/
theorem untrusted_thumb_title_only (h : Handler) (content id : String)
    (b : BrandingResponse) (t : BrandingTitle) (ts : List BrandingTitle)
    (th : BrandingThumbnail) (tts : List BrandingThumbnail)
    (tf : Option (List Nat)) (n : Nat) (u : Bool)
    (hx : extractVideoId content = some id) (hb : b.titles = t :: ts)
    (hg : t.locked = true ∨ 0 ≤ t.votes)
    (hth : b.thumbnails = th :: tts)
    (hthl : th.locked = false) (hthv : th.votes < 0) :
    callsThumbFetch (handlerMessage h content (some b) tf n u) = false ∧
    sendsReply (handlerMessage h content (some b) tf n u) = true ∧
    sentReplies (handlerMessage h content (some b) tf n u) =
      [composeReply t h.thumbnail_mode none] ∧
    (composeReply t h.thumbnail_mode none).hasThumbAttachment = false := by
  rw [handlerMessage_pass hx hb hg]
  have htd := thumbDecision_untrusted (h := h) tf hth hthl hthv
  refine ⟨?_, ?_, ?_, ?_⟩
  · rw [callsThumbFetch_cons, callsThumbFetch_afterGate, htd]
    simp [Action.isThumbFetch]
  · exact sendsReply_cons_of _ (sendsReply_afterGate h id b t tf n u)
  · rw [sentReplies_cons_fetchB, sentReplies_afterGate, htd]
  · simpa using composeReply_hasThumb t h.thumbnail_mode none

theorem untrusted_thumb_title_only_w :
    callsThumbFetch (handlerMessage ⟨true, ThumbnailMode.Enabled⟩
      "youtu.be/aaaaaaaaaaa"
      (some ⟨[⟨"T", false, 3, true, "u"⟩],
        [⟨none, false, -4, false, "v"⟩], 0, none⟩) (some [1]) 0 true) =
      false ∧
    sendsReply (handlerMessage ⟨true, ThumbnailMode.Enabled⟩
      "youtu.be/aaaaaaaaaaa"
      (some ⟨[⟨"T", false, 3, true, "u"⟩],
        [⟨none, false, -4, false, "v"⟩], 0, none⟩) (some [1]) 0 true) =
      true := by
  have hm := untrusted_thumb_title_only ⟨true, ThumbnailMode.Enabled⟩
    "youtu.be/aaaaaaaaaaa" "aaaaaaaaaaa"
    ⟨[⟨"T", false, 3, true, "u"⟩], [⟨none, false, -4, false, "v"⟩], 0, none⟩
    ⟨"T", false, 3, true, "u"⟩ [] ⟨none, false, -4, false, "v"⟩ []
    (some [1]) 0 true (by decide) rfl (Or.inl rfl) rfl rfl (by decide)
  exact ⟨hm.1, hm.2.1⟩

/-- Claim C8: the suppress-preview edit of the original message occurs
exactly when the mode is not Disabled, a thumbnail image was attached
to a sent reply, and remove_embed is set; in every other case no edit
happens. -/
theorem suppress_edit_condition (h : Handler) (content : String)
    (br : Option BrandingResponse) (tf : Option (List Nat)) (n : Nat)
    (u : Bool) :
    hasSuppress (handlerMessage h content br tf n u) =
      (decide (h.thumbnail_mode ≠ ThumbnailMode.Disabled) &&
        (sentReplies (handlerMessage h content br tf n u)).any
          (fun r => r.hasThumbAttachment) && h.remove_embed) := by
  unfold handlerMessage
  cases hx : extractVideoId content with
  | none => simp [hasSuppress, sentReplies]
  | some id =>
    cases br with
    | none => simp [hasSuppress, sentReplies, Action.isSuppress]
    | some b =>
      cases hhead : b.titles.head? with
      | none => simp [hasSuppress, sentReplies, Action.isSuppress, hhead]
      | some t =>
        simp only [hhead]
        by_cases hgate : t.locked = false ∧ t.votes < 0
        · rw [if_pos hgate]
          simp [hasSuppress, sentReplies, Action.isSuppress]
        · rw [if_neg hgate]
          rw [hasSuppress_cons, hasSuppress_afterGate,
            sentReplies_cons_fetchB, sentReplies_afterGate]
          simp [Action.isSuppress, composeReply_hasThumb]

/-- Claim C9: when the suppression conditions hold and the original
message has zero embeds, the trace performs the bounded 5000 ms wait
(whatever its resolution u) immediately followed by the suppress edit;
when the original already has an embed, the edit occurs with no wait
anywhere in the trace. -/
theorem preview_wait_bounded (h : Handler) (content id : String)
    (b : BrandingResponse) (t : BrandingTitle) (ts : List BrandingTitle)
    (tf : Option (List Nat)) (n : Nat)
    (hx : extractVideoId content = some id) (hb : b.titles = t :: ts)
    (hg : t.locked = true ∨ 0 ≤ t.votes)
    (hth : (thumbDecision h b tf).2.isSome = true)
    (hre : h.remove_embed = true) :
    (n = 0 → ∀ u, ∃ pre, handlerMessage h content (some b) tf n u =
      pre ++ [Action.waitUpdate 5000 u, Action.suppressEmbeds]) ∧
    (n ≠ 0 → ∀ u,
      hasWait (handlerMessage h content (some b) tf n u) = false ∧
      ∃ pre, handlerMessage h content (some b) tf n u =
        pre ++ [Action.suppressEmbeds]) := by
  have hmode : h.thumbnail_mode ≠ ThumbnailMode.Disabled := by
    intro hm
    rw [thumbDecision_disabled b tf hm] at hth
    simp at hth
  constructor
  · intro hn u
    rw [handlerMessage_pass hx hb hg]
    unfold afterGate suppressionActions
    rw [hth, if_pos ⟨hmode, rfl, hre⟩, if_pos hn]
    refine ⟨Action.fetchBranding id ::
      thumbActions id (thumbDecision h b tf).1 ++
      [Action.sendReply
        (composeReply t h.thumbnail_mode (thumbDecision h b tf).2)], ?_⟩
    simp
  · intro hn u
    rw [handlerMessage_pass hx hb hg]
    unfold afterGate suppressionActions
    rw [hth, if_pos ⟨hmode, rfl, hre⟩, if_neg hn]
    constructor
    · simp only [hasWait, List.any_cons, List.any_append,
        Action.isWaitUpdate, List.nil_append]
      cases (thumbDecision h b tf).1 <;>
        simp [thumbActions, Action.isWaitUpdate]
    · refine ⟨Action.fetchBranding id ::
        thumbActions id (thumbDecision h b tf).1 ++
        [Action.sendReply
          (composeReply t h.thumbnail_mode (thumbDecision h b tf).2)], ?_⟩
      simp

theorem preview_wait_bounded_w :
    (thumbDecision ⟨true, ThumbnailMode.Enabled⟩
      ⟨[⟨"T", false, 3, true, "u"⟩], [⟨none, false, 10, true, "v"⟩], 0,
        none⟩ (some [1])).2.isSome = true ∧
    ∃ pre, handlerMessage ⟨true, ThumbnailMode.Enabled⟩
      "youtu.be/aaaaaaaaaaa"
      (some ⟨[⟨"T", false, 3, true, "u"⟩],
        [⟨none, false, 10, true, "v"⟩], 0, none⟩) (some [1]) 0 false =
      pre ++ [Action.waitUpdate 5000 false, Action.suppressEmbeds] := by
  refine ⟨by decide, ?_⟩
  exact (preview_wait_bounded ⟨true, ThumbnailMode.Enabled⟩
    "youtu.be/aaaaaaaaaaa" "aaaaaaaaaaa"
    ⟨[⟨"T", false, 3, true, "u"⟩], [⟨none, false, 10, true, "v"⟩], 0, none⟩
    ⟨"T", false, 3, true, "u"⟩ [] (some [1]) 0 (by decide) rfl
    (Or.inl rfl) (by decide) rfl).1 rfl false

/-- Claim C7: extraction succeeds exactly on texts containing a
recognized link shape.  When some position of the text matches the
pattern, extraction returns an identifier, namely the capture of the
first (leftmost) matching position; any returned capture is an
11-character identifier over [A-Za-z0-9_-]; and when no position
matches, extraction returns nothing and the handler performs no action
at all. -/
theorem extract_leftmost_spec (s : String) :
    (∀ id, extractVideoId s = some id →
      id.length = 11 ∧ id.data.all idChar = true ∧
      ∃ i, i ≤ s.data.length ∧ matchAt (s.data.drop i) = some id ∧
        ∀ j, j < i → matchAt (s.data.drop j) = none) ∧
    (∀ i id, matchAt (s.data.drop i) = some id →
      (∀ j, j < i → matchAt (s.data.drop j) = none) →
      extractVideoId s = some id) ∧
    ((∃ i, matchAt (s.data.drop i) ≠ none) →
      ∃ id, extractVideoId s = some id) ∧
    ((∀ i, i ≤ s.data.length → matchAt (s.data.drop i) = none) →
      extractVideoId s = none ∧
      ∀ h br tf n u, handlerMessage h s br tf n u = []) := by
  refine ⟨?_, ?_, ?_, ?_⟩
  · intro id hid
    obtain ⟨i, hle, hi, hj⟩ := search_some s.data id hid
    obtain ⟨h1, h2⟩ := matchAt_some hi
    exact ⟨h1, h2, i, hle, hi, hj⟩
  · intro i id hi hj
    exact search_first s.data i id hi hj
  · intro hex
    have hspec := Nat.find_spec hex
    cases hmo : matchAt (s.data.drop (Nat.find hex)) with
    | none => exact absurd hmo hspec
    | some id =>
      refine ⟨id, search_first s.data (Nat.find hex) id hmo (fun j hjj => ?_)⟩
      have hmin := Nat.find_min hex hjj
      by_contra hc
      exact hmin hc
  · intro hall
    have hnone : extractVideoId s = none := search_none s.data hall
    refine ⟨hnone, fun h br tf n u => ?_⟩
    unfold handlerMessage
    rw [hnone]

theorem extract_leftmost_spec_w :
    matchAt (("check https://youtu.be/dQw4w9WgXcQ out").data.drop 14) =
      some "dQw4w9WgXcQ" ∧
    (∀ j, j < 14 →
      matchAt (("check https://youtu.be/dQw4w9WgXcQ out").data.drop j) =
        none) ∧
    extractVideoId "check https://youtu.be/dQw4w9WgXcQ out" =
      some "dQw4w9WgXcQ" ∧
    ("dQw4w9WgXcQ").length = 11 ∧
    ("dQw4w9WgXcQ").data.all idChar = true ∧
    extractVideoId "no link here" = none ∧
    ∀ h br tf n u, handlerMessage h "no link here" br tf n u = [] := by
  have hpos := (extract_leftmost_spec "check https://youtu.be/dQw4w9WgXcQ out").2.1
    14 "dQw4w9WgXcQ" (by decide) (by decide)
  have hshape := (extract_leftmost_spec "check https://youtu.be/dQw4w9WgXcQ out").1
    "dQw4w9WgXcQ" hpos
  have hneg := (extract_leftmost_spec "no link here").2.2.2 (by decide)
  exact ⟨by decide, by decide, hpos, hshape.1, hshape.2.1, hneg.1, hneg.2⟩

/-! ## Model fidelity checks: the matcher on the common link shapes -/

theorem extract_example_short :
    extractVideoId "check https://youtu.be/dQw4w9WgXcQ out" =
      some "dQw4w9WgXcQ" := by decide

theorem extract_example_query :
    extractVideoId "https://www.youtube.com/watch?v=dQw4w9WgXcQ" =
      some "dQw4w9WgXcQ" := by decide

theorem extract_example_embed :
    extractVideoId "https://youtube.com/embed/dQw4w9WgXcQ" =
      some "dQw4w9WgXcQ" := by decide

theorem extract_example_nocookie :
    extractVideoId "https://www.youtube-nocookie.com/embed/dQw4w9WgXcQ" =
      some "dQw4w9WgXcQ" := by decide

theorem extract_example_v_path :
    extractVideoId "youtube.com/v/abcdefghijk" = some "abcdefghijk" := by
  decide

theorem extract_example_amp :
    extractVideoId "youtube.com/watch?x=1&v=dQw4w9WgXcQ" =
      some "dQw4w9WgXcQ" := by decide

theorem extract_example_first_of_two :
    extractVideoId "a youtu.be/aaaaaaaaaaa b youtu.be/bbbbbbbbbbb" =
      some "aaaaaaaaaaa" := by decide

theorem extract_example_too_short :
    extractVideoId "youtu.be/short" = none := by decide

theorem extract_example_none :
    extractVideoId "no link here" = none := by decide

end DeArrow
